import Mathlib

/-!
Shallow embedding of the `bogota-apartments` Scrapy project, centred on
`MongoDBPipeline.process_item` (src/bogota_apartments/pipelines.py) and the
nested-lookup helper `MetrocuadradoSpider.try_get`
(src/bogota_apartments/spiders/metrocuadrado.py).

Python dictionaries are modelled as association lists of string keys and
`Val` values, read and written with a consistent leftmost-occurrence
discipline; genuine Python dictionaries never hold a duplicate key, and on
such documents the operations below agree with Python's semantics exactly.
The MongoDB collection is a list of documents; `insert_one` appends,
`find_one` returns the first document matching the `codigo` filter, and
`update_one` with a `$set` document sets every listed field on the first
matching document.  Each call of `datetime.now()` during the handling of one
item is represented by a single abstract clock value `now : Nat`.  Code paths
that would raise inside the pipeline's `try` block (and are therefore turned
into `DropItem` by the `except` clauses) are modelled with `Option`, `none`
standing for the dropped item.
-/

namespace BogotaApartments

/-- The dynamic values stored in a scraped item or a MongoDB document:
Python `None`, numbers, strings, `datetime` instants (abstracted to a tick),
lists and dictionaries. -/
inductive Val where
  | vnone
  | int (n : Int)
  | str (s : String)
  | time (t : Nat)
  | list (xs : List Val)
  | dict (kvs : List (String × Val))

mutual

/-- Structural equality on `Val`, mirroring Python `==` on these values. -/
def Val.beq : Val → Val → Bool
  | .vnone, .vnone => true
  | .int a, .int b => a == b
  | .str a, .str b => a == b
  | .time a, .time b => a == b
  | .list xs, .list ys => beqValList xs ys
  | .dict xs, .dict ys => beqValDict xs ys
  | _, _ => false

def beqValList : List Val → List Val → Bool
  | [], [] => true
  | x :: xs, y :: ys => Val.beq x y && beqValList xs ys
  | _, _ => false

def beqValDict : List (String × Val) → List (String × Val) → Bool
  | [], [] => true
  | (k, x) :: xs, (l, y) :: ys => k == l && Val.beq x y && beqValDict xs ys
  | _, _ => false

end

mutual

theorem Val.beq_refl : ∀ a : Val, Val.beq a a = true
  | .vnone => rfl
  | .int _ => by simp [Val.beq]
  | .str _ => by simp [Val.beq]
  | .time _ => by simp [Val.beq]
  | .list xs => by simp [Val.beq, beqValList_refl xs]
  | .dict xs => by simp [Val.beq, beqValDict_refl xs]

theorem beqValList_refl : ∀ xs : List Val, beqValList xs xs = true
  | [] => rfl
  | x :: xs => by simp [beqValList, Val.beq_refl x, beqValList_refl xs]

theorem beqValDict_refl : ∀ xs : List (String × Val), beqValDict xs xs = true
  | [] => rfl
  | (_, x) :: xs => by simp [beqValDict, Val.beq_refl x, beqValDict_refl xs]

end

mutual

theorem Val.beq_eq : ∀ a b : Val, Val.beq a b = true → a = b
  | .vnone, .vnone, _ => rfl
  | .int _, .int _, h => by simp [Val.beq] at h; simp [h]
  | .str _, .str _, h => by simp [Val.beq] at h; simp [h]
  | .time _, .time _, h => by simp [Val.beq] at h; simp [h]
  | .list xs, .list ys, h => by
      simp only [Val.beq] at h
      simp [beqValList_eq xs ys h]
  | .dict xs, .dict ys, h => by
      simp only [Val.beq] at h
      simp [beqValDict_eq xs ys h]
  | .vnone, .int _, h => by simp [Val.beq] at h
  | .vnone, .str _, h => by simp [Val.beq] at h
  | .vnone, .time _, h => by simp [Val.beq] at h
  | .vnone, .list _, h => by simp [Val.beq] at h
  | .vnone, .dict _, h => by simp [Val.beq] at h
  | .int _, .vnone, h => by simp [Val.beq] at h
  | .int _, .str _, h => by simp [Val.beq] at h
  | .int _, .time _, h => by simp [Val.beq] at h
  | .int _, .list _, h => by simp [Val.beq] at h
  | .int _, .dict _, h => by simp [Val.beq] at h
  | .str _, .vnone, h => by simp [Val.beq] at h
  | .str _, .int _, h => by simp [Val.beq] at h
  | .str _, .time _, h => by simp [Val.beq] at h
  | .str _, .list _, h => by simp [Val.beq] at h
  | .str _, .dict _, h => by simp [Val.beq] at h
  | .time _, .vnone, h => by simp [Val.beq] at h
  | .time _, .int _, h => by simp [Val.beq] at h
  | .time _, .str _, h => by simp [Val.beq] at h
  | .time _, .list _, h => by simp [Val.beq] at h
  | .time _, .dict _, h => by simp [Val.beq] at h
  | .list _, .vnone, h => by simp [Val.beq] at h
  | .list _, .int _, h => by simp [Val.beq] at h
  | .list _, .str _, h => by simp [Val.beq] at h
  | .list _, .time _, h => by simp [Val.beq] at h
  | .list _, .dict _, h => by simp [Val.beq] at h
  | .dict _, .vnone, h => by simp [Val.beq] at h
  | .dict _, .int _, h => by simp [Val.beq] at h
  | .dict _, .str _, h => by simp [Val.beq] at h
  | .dict _, .time _, h => by simp [Val.beq] at h
  | .dict _, .list _, h => by simp [Val.beq] at h

theorem beqValList_eq : ∀ xs ys : List Val, beqValList xs ys = true → xs = ys
  | [], [], _ => rfl
  | x :: xs, y :: ys, h => by
      simp only [beqValList, Bool.and_eq_true] at h
      rw [Val.beq_eq x y h.1, beqValList_eq xs ys h.2]
  | [], _ :: _, h => by simp [beqValList] at h
  | _ :: _, [], h => by simp [beqValList] at h

theorem beqValDict_eq : ∀ xs ys : List (String × Val), beqValDict xs ys = true → xs = ys
  | [], [], _ => rfl
  | (k, x) :: xs, (l, y) :: ys, h => by
      simp only [beqValDict, Bool.and_eq_true] at h
      obtain ⟨⟨h1, h2⟩, h3⟩ := h
      rw [Val.beq_eq x y h2, beqValDict_eq xs ys h3, show k = l from by simpa using h1]
  | [], _ :: _, h => by simp [beqValDict] at h
  | _ :: _, [], h => by simp [beqValDict] at h

end

instance : DecidableEq Val := fun a b =>
  if h : Val.beq a b = true then isTrue (Val.beq_eq a b h)
  else isFalse (fun he => h (he ▸ Val.beq_refl a))

/-- A Python dictionary (a scraped item or a MongoDB document). -/
abbrev Doc := List (String × Val)

/-- `d.get(k)` without a default: the value at the first occurrence of `k`. -/
def dget? : Doc → String → Option Val
  | [], _ => none
  | (k, v) :: rest, key => if k = key then some v else dget? rest key

/-- `d.get(k, dflt)`: the stored value when the key is present (even when that
value is `None`), the default otherwise. -/
def dgetD (d : Doc) (key : String) (dflt : Val) : Val :=
  (dget? d key).getD dflt

/-- `k in d`. -/
def dhas (d : Doc) (key : String) : Bool :=
  (dget? d key).isSome

/-- `d[k] = v`: replaces the value at an existing key in place, otherwise
appends the new pair at the end — Python dictionaries keep insertion order. -/
def dset : Doc → String → Val → Doc
  | [], key, v => [(key, v)]
  | (k, w) :: rest, key, v =>
      if k = key then (k, v) :: rest else (k, w) :: dset rest key v

/-- `del d[k]`.  A Python dictionary holds at most one entry per key, so the
deletion is rendered as a filter, which agrees with `del` on such documents. -/
def ddel (d : Doc) (key : String) : Doc :=
  d.filter (fun kv => kv.1 ≠ key)

/-- Python truth-value testing (`if not codigo`, `if not timeline`). -/
def falsy : Val → Bool
  | .vnone => true
  | .int n => n == 0
  | .str s => s == ""
  | .time _ => false
  | .list xs => xs.isEmpty
  | .dict kvs => kvs.isEmpty

/-- The MongoDB collection: a list of documents in insertion order. -/
abbrev DB := List Doc

/-- `collection.find_one({'codigo': c})` — the first stored document whose
`codigo` field equals the (non-null) filter value. -/
def findOne (db : DB) (c : Val) : Option Doc :=
  db.find? (fun d => dget? d "codigo" = some c)

/-- `$set` of every field of `upd` on the document `d`. -/
def applySet (d upd : Doc) : Doc :=
  upd.foldl (fun acc kv => dset acc kv.1 kv.2) d

/-- `collection.update_one({'codigo': c}, {'$set': upd})` — applies the `$set`
to the first matching document, leaving the rest of the collection alone. -/
def updateOne : DB → Val → Doc → DB
  | [], _, _ => []
  | d :: rest, c, upd =>
      if dget? d "codigo" = some c then applySet d upd :: rest
      else d :: updateOne rest c upd

/-! ### The `caracteristicas` aggregation (pipelines.py lines 159-163)

```python
data['caracteristicas'] = []
for key in ['featured_interior', 'featured_exterior', 'featured_zona_comun', 'featured_sector']:
    if key in data:
        data['caracteristicas'] += data.get(key, [])
        del data[key]
```
-/

/-- The four source-specific feature-list keys consolidated into
`caracteristicas`. -/
def featuredKeys : List String :=
  ["featured_interior", "featured_exterior", "featured_zona_comun", "featured_sector"]

/-- The elements `list.__iadd__` would append for a right operand: a list
contributes its elements, a string its characters, a dictionary its keys;
anything else raises `TypeError` (which the pipeline's `except` turns into a
dropped item). -/
def iterItems : Val → Option (List Val)
  | .list xs => some xs
  | .str s => some (s.toList.map (fun c => Val.str c.toString))
  | .dict kvs => some (kvs.map (fun kv => Val.str kv.1))
  | _ => none

/-- One iteration of the aggregation loop for the key `key`. -/
def remapStep (d : Doc) (key : String) : Option Doc :=
  if dhas d key then
    match dget? d "caracteristicas" with
    | some (.list cur) =>
        match iterItems (dgetD d key (Val.list [])) with
        | some items => some (ddel (dset d "caracteristicas" (Val.list (cur ++ items))) key)
        | none => none
    | _ => none
  else some d

/-- The whole aggregation: initialise `caracteristicas` to `[]`, then fold the
loop over the four featured keys. -/
def remapCaracteristicas (d : Doc) : Option Doc :=
  List.foldlM remapStep (dset d "caracteristicas" (Val.list [])) featuredKeys

/-! ### The tracked-field loop of the update path (pipelines.py lines 171-188)

```python
fields_to_track = ['precio_venta', 'precio_arriendo']
price_changed = False
for field in fields_to_track:
    if field in data and data[field] != update_data.get(field):
        if not timeline:
            timeline.append({'fecha': update_data.get('datetime', datetime.now()),
                             field: update_data.get(field)})
        timeline.append({'fecha': datetime.now(), field: data[field]})
        update_data[field] = data[field]
        price_changed = True
    elif field not in update_data and field in data:
        update_data[field] = data[field]
        price_changed = True
```
The `timeline` variable aliases the list stored under `'timeline'` (put there
by `setdefault`), so its in-place appends are rendered by writing the grown
list back under that key.  If the stored `timeline` value is not a list, the
first `append` raises and the item is dropped (`none`).
-/

def fieldsToTrack : List String := ["precio_venta", "precio_arriendo"]

/-- One iteration of the tracked-field loop, for the field `field`, on the
accumulated `(update_data, price_changed)` pair. -/
def trackField (data : Doc) (now : Nat) : Doc × Bool → String → Option (Doc × Bool)
  | (upd, changed), field =>
    match dget? data field with
    | some v =>
        if v ≠ dgetD upd field Val.vnone then
          match dget? upd "timeline" with
          | some (.list tl) =>
              some (dset (dset upd "timeline"
                (Val.list ((if tl.isEmpty then
                    tl ++ [Val.dict [("fecha", dgetD upd "datetime" (Val.time now)),
                                     (field, dgetD upd field Val.vnone)]]
                  else tl) ++ [Val.dict [("fecha", Val.time now), (field, v)]]))) field v, true)
          | _ => none
        else if !(dhas upd field) then
          some (dset upd field v, true)
        else some (upd, changed)
    | none => some (upd, changed)

/-- The loop over a list of tracked fields. -/
def trackFields (data : Doc) (now : Nat) (fields : List String) (acc : Doc × Bool) :
    Option (Doc × Bool) :=
  match fields with
  | [] => some acc
  | f :: fs =>
      match trackField data now acc f with
      | some acc' => trackFields data now fs acc'
      | none => none

/-- `update_data.setdefault('timeline', [])` — inserts an empty list when the
key is absent. -/
def setdefaultTimeline (d : Doc) : Doc :=
  if dhas d "timeline" then d else dset d "timeline" (Val.list [])

/-- The metrocuadrado update path on an existing document (pipelines.py lines
166-196): stamp `last_view`, ensure `timeline`, run the tracked-field loop
over `precio_venta` then `precio_arriendo`, and overwrite `imagenes` and
`descripcion` from the observation. -/
def mcUpdate (data ex : Doc) (now : Nat) : Option (Doc × Bool) :=
  let upd := dset ex "last_view" (Val.time now)
  let upd := setdefaultTimeline upd
  match trackFields data now fieldsToTrack (upd, false) with
  | some acc =>
      let upd := dset acc.1 "imagenes" (dgetD data "imagenes" (Val.list []))
      let upd := dset upd "descripcion" (dgetD data "descripcion" (Val.str ""))
      some (upd, acc.2)
  | none => none

/-- The habi update path (pipelines.py lines 221-247): same tracked-field
logic with the single field `precio_venta` and no attribute overwrites. -/
def habiUpdate (data ex : Doc) (now : Nat) : Option (Doc × Bool) :=
  let upd := dset ex "last_view" (Val.time now)
  let upd := setdefaultTimeline upd
  trackFields data now ["precio_venta"] (upd, false)

/-- `data['datetime'] = data.get('datetime', datetime.now())`, performed on
every insert path before `insert_one`. -/
def stampDatetime (d : Doc) (now : Nat) : Doc :=
  dset d "datetime" (dgetD d "datetime" (Val.time now))

/-- Pipeline state relevant to `process_item`: the `enabled` flag and whether
`client` and `db` are non-`None`. -/
structure Pipeline where
  enabled : Bool
  clientSome : Bool
  dbSome : Bool

/-- What `process_item` does with one item: return it untouched (disabled
pipeline, or the non-persisting `metrocuadrado_search` spider), raise
`DropItem`, or return it after an insert or an update (the latter carrying
the `price_changed` flag). -/
inductive PipeOutcome where
  | passthrough (returned : Doc)
  | dropped
  | inserted (returned : Doc)
  | updated (priceChanged : Bool) (returned : Doc)
deriving DecidableEq

/-- `MongoDBPipeline.process_item` (pipelines.py lines 128-297), returning the
outcome together with the collection after the call. -/
def processItem (p : Pipeline) (spiderName : String) (item : Doc) (db : DB)
    (now : Nat) : PipeOutcome × DB :=
  if !p.enabled || !p.clientSome || !p.dbSome then (.passthrough item, db)
  else
    -- data = dict(ApartmentsItem(item)) : a fresh dictionary with the item's fields
    let data := item
    let codigo := dgetD data "codigo" Val.vnone
    if falsy codigo then (.dropped, db)
    else if spiderName = "metrocuadrado" then
      let existing := findOne db codigo
      match remapCaracteristicas data with
      | none => (.dropped, db)
      | some data =>
        match existing with
        | some ex =>
            match mcUpdate data ex now with
            | some acc => (.updated acc.2 item, updateOne db codigo acc.1)
            | none => (.dropped, db)
        | none => (.inserted item, db ++ [stampDatetime data now])
    else if spiderName = "habi" then
      match findOne db codigo with
      | some ex =>
          match habiUpdate data ex now with
          | some acc => (.updated acc.2 item, updateOne db codigo acc.1)
          | none => (.dropped, db)
      | none => (.inserted item, db ++ [stampDatetime data now])
    else if spiderName = "metrocuadrado_search" then (.passthrough item, db)
    else (.inserted item, db ++ [stampDatetime data now])

/-! ### Analysis helpers over documents and timelines -/

/-- The timeline entries of a document: the stored list when `timeline` holds
a list, and no entries when the key is absent (every reader of the field
treats absence as emptiness via `setdefault`). -/
def timelineOf (d : Doc) : List Val :=
  match dget? d "timeline" with
  | some (.list tl) => tl
  | _ => []

/-- Whether a timeline entry (a dictionary) mentions the field `f`. -/
def entryHasKey (f : String) : Val → Bool
  | .dict kvs => kvs.any (fun kv => kv.1 = f)
  | _ => false

/-- How many timeline entries of `d` mention the field `f`. -/
def entriesFor (f : String) (d : Doc) : Nat :=
  (timelineOf d).countP (entryHasKey f)

/-! ### `MetrocuadradoSpider.try_get` (metrocuadrado.py lines 268-283)

```python
def try_get(self, dictionary, keys: list):
    try:
        value = dictionary
        for key in keys:
            if isinstance(value, list) and isinstance(key, int) and 0 <= key < len(value):
                value = value[key]
            elif isinstance(value, dict) and key in value:
                value = value[key]
            else:
                return None
        return value
    except (KeyError, TypeError, IndexError):
        return None
```
The JSON payload handed to `try_get` is string-keyed, so dictionary keys are
strings; a path key is either a string or an integer index.
-/

/-- A JSON-like value as parsed from the embedded script data. -/
inductive JVal where
  | jnull
  | jbool (b : Bool)
  | jnum (n : Int)
  | jstr (s : String)
  | jlist (xs : List JVal)
  | jdict (kvs : List (String × JVal))

/-- A key of the path handed to `try_get`: a string key or an integer index. -/
inductive PKey where
  | pstr (s : String)
  | pint (i : Int)

/-- `key in value` followed by `value[key]` on a string-keyed dictionary. -/
def dictFind : List (String × JVal) → String → Option JVal
  | [], _ => none
  | (k, v) :: rest, key => if k = key then some v else dictFind rest key

/-- The loop of `try_get`: list plus in-range integer index steps into the
element, dictionary plus present string key steps into the value, and every
other combination returns `None`. -/
def tryGet : JVal → List PKey → Option JVal
  | value, [] => some value
  | value, key :: keys =>
      match value, key with
      | .jlist xs, .pint i =>
          if h : 0 ≤ i ∧ i < (xs.length : Int) then
            tryGet (xs.get ⟨i.toNat, by omega⟩) keys
          else none
      | .jdict kvs, .pstr s =>
          match dictFind kvs s with
          | some v => tryGet v keys
          | none => none
      | _, _ => none

/-- One lookup step exactly as the claim words it: a valid (present) dictionary
key or an in-range list index addresses the child value; any other step
fails.  Stated independently of `tryGet`'s loop so the two can be compared. -/
def specStep (v : JVal) (k : PKey) : Option JVal :=
  match v, k with
  | .jlist xs, .pint i =>
      if h : 0 ≤ i ∧ i < (xs.length : Int) then some (xs.get ⟨i.toNat, by omega⟩)
      else none
  | .jdict kvs, .pstr s => dictFind kvs s
  | _, _ => none

/-- The address denoted by a key path: the monadic fold of single valid steps,
yielding `none` as soon as one step is invalid. -/
def resolvePath (v : JVal) (ks : List PKey) : Option JVal :=
  ks.foldlM specStep v

/-! ### Statement helpers for the baseline analysis

`baselineEntry` and `newEntry` name the two dictionary shapes appended to the
timeline by the tracked-field loop; `afterChange` and `afterSecondChange` name
the documents produced by one and two consecutive applications of the loop
body to the same field. -/

/-- The retroactive baseline entry the loop appends before the first recorded
change: `{'fecha': update_data.get('datetime', now), field:
update_data.get(field)}`. -/
def baselineEntry (upd : Doc) (f : String) (now : Nat) : Val :=
  Val.dict [("fecha", dgetD upd "datetime" (Val.time now)), (f, dgetD upd f Val.vnone)]

/-- The entry recording a newly observed value: `{'fecha': now, field: value}`. -/
def newEntry (f : String) (v : Val) (now : Nat) : Val :=
  Val.dict [("fecha", Val.time now), (f, v)]

/-- The document after the loop body records a change of `f` to `v` on `upd`
whose stored timeline was `tl`: the baseline is prepended exactly when `tl`
was empty, then the new entry is appended and the stored value updated. -/
def afterChange (upd : Doc) (f : String) (v : Val) (tl : List Val) (now : Nat) : Doc :=
  dset (dset upd "timeline"
    (Val.list (tl ++ (if tl = [] then [baselineEntry upd f now] else [])
      ++ [newEntry f v now]))) f v

/-- The document after a second recorded change of the same field. -/
def afterSecondChange (upd : Doc) (f : String) (v1 v2 : Val) (tl : List Val)
    (now now' : Nat) : Doc :=
  dset (dset (afterChange upd f v1 tl now) "timeline"
    (Val.list ((tl ++ (if tl = [] then [baselineEntry upd f now] else [])
      ++ [newEntry f v1 now]) ++ [newEntry f v2 now']))) f v2

/-! ### Concrete documents used in counterexamples and witnesses -/

/-- A stored record with both prices and no timeline yet. -/
def c1Stored : Doc := [("codigo", Val.str "A"), ("datetime", Val.time 0),
  ("precio_venta", Val.int 100), ("precio_arriendo", Val.int 200)]

/-- An observation changing both prices of `c1Stored` at once. -/
def c1Observed : Doc := [("codigo", Val.str "A"), ("precio_venta", Val.int 120),
  ("precio_arriendo", Val.int 250), ("datetime", Val.time 5)]

/-- The document the update path persists for `c1Observed` against `c1Stored`:
three timeline entries, with no baseline for `precio_arriendo`. -/
def c1Result : Doc := [("codigo", Val.str "A"), ("datetime", Val.time 0),
  ("precio_venta", Val.int 120), ("precio_arriendo", Val.int 250), ("last_view", Val.time 5),
  ("timeline", Val.list [Val.dict [("fecha", Val.time 0), ("precio_venta", Val.int 100)],
    Val.dict [("fecha", Val.time 5), ("precio_venta", Val.int 120)],
    Val.dict [("fecha", Val.time 5), ("precio_arriendo", Val.int 250)]]),
  ("imagenes", Val.list []), ("descripcion", Val.str "")]

/-- A raw observation with one featured list. -/
def c4Raw : Doc := [("codigo", Val.str "A"), ("featured_interior", Val.list [Val.str "balcon"])]

/-- `c4Raw` after one aggregation pass. -/
def c4Once : Doc := [("codigo", Val.str "A"), ("caracteristicas", Val.list [Val.str "balcon"])]

/-- `c4Raw` after two aggregation passes: the entry is gone. -/
def c4Twice : Doc := [("codigo", Val.str "A"), ("caracteristicas", Val.list [])]

/-- A stored record carrying the non-tracked attribute `area`. -/
def c5Stored : Doc := [("codigo", Val.str "B"), ("datetime", Val.time 0),
  ("precio_venta", Val.int 100), ("area", Val.int 50), ("descripcion", Val.str "old")]

/-- An observation with an unchanged price but a new `area` and `descripcion`. -/
def c5Observed : Doc := [("codigo", Val.str "B"), ("precio_venta", Val.int 100),
  ("area", Val.int 60), ("descripcion", Val.str "new"), ("datetime", Val.time 7)]

/-- What the update path persists for `c5Observed`: `descripcion` is taken
from the observation but `area` keeps its stored value. -/
def c5Result : Doc := [("codigo", Val.str "B"), ("datetime", Val.time 0),
  ("precio_venta", Val.int 100), ("area", Val.int 50), ("descripcion", Val.str "new"),
  ("last_view", Val.time 7), ("timeline", Val.list []), ("imagenes", Val.list [])]

/-- A stored record with one timeline-relevant field, used to witness the
baseline characterisation. -/
def wBase : Doc := [("precio_venta", Val.int 100), ("datetime", Val.time 0),
  ("timeline", Val.list [])]

/-- A stored record used by the update-path witnesses. -/
def wExisting : Doc := [("codigo", Val.str "A"), ("datetime", Val.time 0),
  ("precio_venta", Val.int 100), ("area", Val.int 50)]

/-- An observation of `wExisting` with a changed sale price and no rent price. -/
def wObserved : Doc := [("codigo", Val.str "A"), ("precio_venta", Val.int 120),
  ("imagenes", Val.list [Val.str "i"]), ("descripcion", Val.str "d")]

/-- The document `mcUpdate wObserved wExisting 1` persists. -/
def wUpdated : Doc := [("codigo", Val.str "A"), ("datetime", Val.time 0),
  ("precio_venta", Val.int 120), ("area", Val.int 50), ("last_view", Val.time 1),
  ("timeline", Val.list [Val.dict [("fecha", Val.time 0), ("precio_venta", Val.int 100)],
    Val.dict [("fecha", Val.time 1), ("precio_venta", Val.int 120)]]),
  ("imagenes", Val.list [Val.str "i"]), ("descripcion", Val.str "d")]

/-- A never-seen observation, used by the insert-path witness. -/
def wInsertItem : Doc := [("codigo", Val.str "C"), ("precio_venta", Val.int 99),
  ("datetime", Val.time 3)]

/-- `wInsertItem` after the aggregation pass. -/
def wInsertData : Doc := [("codigo", Val.str "C"), ("precio_venta", Val.int 99),
  ("datetime", Val.time 3), ("caracteristicas", Val.list [])]

/-- An item scraped by a spider with no dedicated branch. -/
def wOtherItem : Doc := [("codigo", Val.str "X")]

/-! ### Basic lemmas about document operations -/

theorem dget?_dset_self (d : Doc) (k : String) (v : Val) :
    dget? (dset d k v) k = some v := by
  induction d with
  | nil => simp [dset, dget?]
  | cons kv rest ih =>
      obtain ⟨k', w⟩ := kv
      by_cases h : k' = k
      · simp [dset, dget?, h]
      · simp [dset, dget?, h, ih]

theorem dget?_dset_ne (d : Doc) (k key : String) (v : Val) (h : k ≠ key) :
    dget? (dset d k v) key = dget? d key := by
  induction d with
  | nil => simp [dset, dget?, h]
  | cons kv rest ih =>
      obtain ⟨k', w⟩ := kv
      by_cases hk : k' = k
      · simp [dset, dget?, hk, h]
      · by_cases hk2 : k' = key
        · simp [dset, dget?, hk, hk2, Ne.symm h]
        · simp [dset, dget?, hk, hk2, ih]

theorem dset_self (d : Doc) (k : String) (v : Val) (h : dget? d k = some v) :
    dset d k v = d := by
  induction d with
  | nil => simp [dget?] at h
  | cons kv rest ih =>
      obtain ⟨k', w⟩ := kv
      by_cases hk : k' = k
      · simp [dget?, hk] at h
        simp [dset, hk, h]
      · simp [dget?, hk] at h
        simp [dset, hk, ih h]

theorem dget?_ddel_self (d : Doc) (k : String) : dget? (ddel d k) k = none := by
  induction d with
  | nil => simp [ddel, dget?]
  | cons kv rest ih =>
      obtain ⟨k', w⟩ := kv
      by_cases hk : k' = k
      · simpa [ddel, dget?, hk] using ih
      · simpa [ddel, dget?, hk] using ih

theorem dget?_ddel_ne (d : Doc) (k key : String) (h : k ≠ key) :
    dget? (ddel d key) k = dget? d k := by
  induction d with
  | nil => simp [ddel, dget?]
  | cons kv rest ih =>
      obtain ⟨k', w⟩ := kv
      by_cases hk : k' = key
      · simpa [ddel, dget?, hk, Ne.symm h] using ih
      · by_cases hk2 : k' = k
        · simp [ddel, dget?, hk, hk2, h]
        · simpa [ddel, dget?, hk, hk2] using ih

theorem dhas_eq_false_iff (d : Doc) (k : String) :
    dhas d k = false ↔ dget? d k = none := by
  cases h : dget? d k <;> simp [dhas, h]

theorem timelineOf_dset_ne (d : Doc) (k : String) (v : Val) (h : k ≠ "timeline") :
    timelineOf (dset d k v) = timelineOf d := by
  simp [timelineOf, dget?_dset_ne d k "timeline" v h]

theorem entriesFor_dset_ne (f : String) (d : Doc) (k : String) (v : Val)
    (h : k ≠ "timeline") : entriesFor f (dset d k v) = entriesFor f d := by
  simp [entriesFor, timelineOf_dset_ne d k v h]

theorem dget?_setdefaultTimeline_ne (d : Doc) (key : String) (h : key ≠ "timeline") :
    dget? (setdefaultTimeline d) key = dget? d key := by
  unfold setdefaultTimeline
  split
  · rfl
  · exact dget?_dset_ne d "timeline" key (Val.list []) (Ne.symm h)

theorem dhas_setdefaultTimeline (d : Doc) :
    dhas (setdefaultTimeline d) "timeline" = true := by
  unfold setdefaultTimeline
  split
  · assumption
  · simp [dhas, dget?_dset_self]

theorem timelineOf_setdefaultTimeline (d : Doc) :
    timelineOf (setdefaultTimeline d) = timelineOf d := by
  unfold setdefaultTimeline
  split
  · rfl
  · next h =>
      rw [Bool.not_eq_true] at h
      rw [dhas_eq_false_iff] at h
      simp [timelineOf, dget?_dset_self, h]

theorem entriesFor_setdefaultTimeline (f : String) (d : Doc) :
    entriesFor f (setdefaultTimeline d) = entriesFor f d := by
  simp [entriesFor, timelineOf_setdefaultTimeline]

theorem setdefaultTimeline_of_dhas (d : Doc) (h : dhas d "timeline" = true) :
    setdefaultTimeline d = d := by simp [setdefaultTimeline, h]

/-! ### Structure of one tracked-field iteration

`trackField_spec` collects everything later proofs need about one pass of the
loop body: a frame property for the other keys, the stored value after the
pass, the exact no-op behaviour on an absent field, preservation of the
`timeline` key, and preservation of the entry count of every other field. -/

theorem trackField_spec (data : Doc) (now : Nat) (u u' : Doc) (c c' : Bool) (f : String)
    (hf : f ≠ "timeline")
    (h : trackField data now (u, c) f = some (u', c')) :
    (∀ k, k ≠ f → k ≠ "timeline" → dget? u' k = dget? u k) ∧
    (∀ v, dget? data f = some v → dget? u' f = some v) ∧
    (dget? data f = none → u' = u ∧ c' = c) ∧
    (dhas u "timeline" = true → dhas u' "timeline" = true) ∧
    (∀ g, g ≠ f → g ≠ "fecha" → entriesFor g u' = entriesFor g u) := by
  unfold trackField at h
  dsimp only at h
  split at h
  case h_2 hd =>
    simp only [Option.some.injEq, Prod.mk.injEq] at h
    obtain ⟨rfl, rfl⟩ := h
    refine ⟨fun _ _ _ => rfl, ?_, fun _ => ⟨rfl, rfl⟩, fun hh => hh, fun _ _ _ => rfl⟩
    intro v hv
    rw [hd] at hv
    cases hv
  case h_1 v hd =>
    split at h
    case isTrue hne =>
      split at h
      case h_1 tl htl =>
        simp only [Option.some.injEq, Prod.mk.injEq] at h
        obtain ⟨rfl, rfl⟩ := h
        refine ⟨?_, ?_, ?_, ?_, ?_⟩
        · intro k hk1 hk2
          rw [dget?_dset_ne _ f k _ (Ne.symm hk1), dget?_dset_ne _ "timeline" k _ (Ne.symm hk2)]
        · intro w hw
          rw [hd] at hw
          cases hw
          exact dget?_dset_self _ f v
        · intro hn; rw [hd] at hn; cases hn
        · intro _
          simp [dhas, dget?_dset_ne _ f "timeline" _ hf, dget?_dset_self]
        · intro g hg1 hg2
          have hfec : ¬("fecha" = g) := Ne.symm hg2
          have hfg : ¬(f = g) := Ne.symm hg1
          have htl1 : timelineOf (dset (dset u "timeline"
              (Val.list ((if tl.isEmpty then tl ++ [Val.dict [("fecha", dgetD u "datetime" (Val.time now)), (f, dgetD u f Val.vnone)]] else tl) ++ [Val.dict [("fecha", Val.time now), (f, v)]]))) f v)
              = ((if tl.isEmpty then tl ++ [Val.dict [("fecha", dgetD u "datetime" (Val.time now)), (f, dgetD u f Val.vnone)]] else tl) ++ [Val.dict [("fecha", Val.time now), (f, v)]]) := by
            rw [timelineOf_dset_ne _ f v hf]
            simp [timelineOf, dget?_dset_self]
          have htl0 : timelineOf u = tl := by simp [timelineOf, htl]
          rw [entriesFor, entriesFor, htl1, htl0, List.countP_append]
          split
          · rw [List.countP_append]
            simp [entryHasKey, hfec, hfg]
          · simp [entryHasKey, hfec, hfg]
      all_goals simp at h
    case isFalse hne =>
      split at h
      case isTrue hhas =>
        simp only [Option.some.injEq, Prod.mk.injEq] at h
        obtain ⟨rfl, rfl⟩ := h
        refine ⟨?_, ?_, ?_, ?_, ?_⟩
        · intro k hk1 _
          exact dget?_dset_ne _ f k _ (Ne.symm hk1)
        · intro w hw
          rw [hd] at hw; cases hw
          exact dget?_dset_self _ f v
        · intro hn; rw [hd] at hn; cases hn
        · intro hh
          simpa [dhas, dget?_dset_ne _ f "timeline" _ hf] using hh
        · intro g hg1 _
          exact entriesFor_dset_ne g _ f _ hf
      case isFalse hhas =>
        simp only [Option.some.injEq, Prod.mk.injEq] at h
        obtain ⟨rfl, rfl⟩ := h
        refine ⟨fun _ _ _ => rfl, ?_, ?_, fun hh => hh, fun _ _ _ => rfl⟩
        · intro w hw
          rw [hd] at hw
          injection hw with hw
          subst hw
          have hne' : v = dgetD u f Val.vnone := by simpa using hne
          have hhas' : dhas u f = true := by simpa using hhas
          cases hg : dget? u f with
          | none => rw [dhas, hg] at hhas'; simp at hhas'
          | some x =>
              rw [hne']
              simp [dgetD, hg]
        · intro hn; rw [hd] at hn; cases hn

/-- The update path decomposed: stamp `last_view`, ensure `timeline`, run the
loop body for `precio_venta` then `precio_arriendo`, overwrite `imagenes` and
`descripcion`. -/
theorem mcUpdate_destruct (data ex : Doc) (now : Nat) (upd : Doc) (c : Bool)
    (h : mcUpdate data ex now = some (upd, c)) :
    ∃ u1 c1 u2,
      trackField data now (setdefaultTimeline (dset ex "last_view" (Val.time now)), false)
          "precio_venta" = some (u1, c1) ∧
      trackField data now (u1, c1) "precio_arriendo" = some (u2, c) ∧
      upd = dset (dset u2 "imagenes" (dgetD data "imagenes" (Val.list [])))
              "descripcion" (dgetD data "descripcion" (Val.str "")) := by
  unfold mcUpdate fieldsToTrack at h
  dsimp only at h
  simp only [trackFields] at h
  split at h
  case h_1 acc1 heq1 =>
    split at heq1
    case h_1 acc2 heq2 =>
      split at heq1
      case h_1 acc3 heq3 =>
        obtain ⟨u1, c1⟩ := acc2
        obtain ⟨u2, c2⟩ := acc3
        simp only [Option.some.injEq] at heq1
        subst heq1
        simp only [Option.some.injEq, Prod.mk.injEq] at h
        obtain ⟨rfl, rfl⟩ := h
        exact ⟨u1, c1, u2, heq2, heq3, rfl⟩
      case h_2 heq3 => simp at heq1
    case h_2 heq2 => simp at heq1
  case h_2 heq1 => simp at h

/-- The loop body leaves the accumulator untouched whenever the observed value
of `f` (if any) already equals the stored one. -/
theorem trackField_noop (data : Doc) (now : Nat) (u : Doc) (cc : Bool) (f : String)
    (hv : ∀ v, dget? data f = some v → dget? u f = some v) :
    trackField data now (u, cc) f = some (u, cc) := by
  unfold trackField
  dsimp only
  cases hd : dget? data f with
  | none => rfl
  | some v =>
      have hval := hv v hd
      have hg : dgetD u f Val.vnone = v := by simp [dgetD, hval]
      simp [hg, dhas, hval]

/-- One aggregation-loop iteration: other keys are untouched, and the
processed key is absent afterwards. -/
theorem remapStep_spec (u u' : Doc) (k : String) (h : remapStep u k = some u') :
    (∀ k', k' ≠ "caracteristicas" → k' ≠ k → dget? u' k' = dget? u k') ∧
    dget? u' k = none := by
  unfold remapStep at h
  split at h
  · split at h
    case h_1 cur hcur =>
      split at h
      case h_1 items hitems =>
        simp only [Option.some.injEq] at h
        subst h
        constructor
        · intro k' h1 h2
          rw [dget?_ddel_ne _ _ _ h2, dget?_dset_ne _ _ _ _ (Ne.symm h1)]
        · exact dget?_ddel_self _ k
      case h_2 hitems => simp at h
    case h_2 hcur => simp at h
  · next hhas =>
    simp only [Option.some.injEq] at h
    subst h
    refine ⟨fun _ _ _ => rfl, ?_⟩
    rw [Bool.not_eq_true] at hhas
    exact (dhas_eq_false_iff u k).mp hhas

/-- The aggregation decomposed into its four iterations. -/
theorem remap_destruct (d d' : Doc) (h : remapCaracteristicas d = some d') :
    ∃ d1 d2 d3,
      remapStep (dset d "caracteristicas" (Val.list [])) "featured_interior" = some d1 ∧
      remapStep d1 "featured_exterior" = some d2 ∧
      remapStep d2 "featured_zona_comun" = some d3 ∧
      remapStep d3 "featured_sector" = some d' := by
  unfold remapCaracteristicas featuredKeys at h
  simp only [List.foldlM_cons, List.foldlM_nil] at h
  cases h1 : remapStep (dset d "caracteristicas" (Val.list [])) "featured_interior" with
  | none => rw [h1] at h; simp at h
  | some d1 =>
    rw [h1] at h
    simp only [Option.bind_eq_bind, Option.some_bind] at h
    cases h2 : remapStep d1 "featured_exterior" with
    | none => rw [h2] at h; simp at h
    | some d2 =>
      rw [h2] at h
      simp only [Option.bind_eq_bind, Option.some_bind] at h
      cases h3 : remapStep d2 "featured_zona_comun" with
      | none => rw [h3] at h; simp at h
      | some d3 =>
        rw [h3] at h
        simp only [Option.bind_eq_bind, Option.some_bind] at h
        cases h4 : remapStep d3 "featured_sector" with
        | none => rw [h4] at h; simp at h
        | some d4 =>
          rw [h4] at h
          simp only [Option.bind_eq_bind, Option.some_bind, Option.pure_def,
            Option.some.injEq] at h
          exact ⟨d1, d2, d3, rfl, h2, h3, by rw [h4, h]⟩

/-! ### Claim C1 — baseline entries on the update path -/

/-- C1, counterexample.  The stored record `c1Stored` holds no timeline entry
for `precio_arriendo`, and the observation changes `precio_arriendo` from 200
to 250, so the claim demands a baseline entry recording the prior value 200
before the new entry.  The code instead checks whether the *whole* timeline is
empty: the earlier `precio_venta` change already filled it, so the update
produces exactly one `precio_arriendo` entry (the new value) and no baseline —
the persisted timeline has three entries, not the four the claim predicts. -/
theorem second_field_first_change_lacks_baseline :
    processItem ⟨true, true, true⟩ "metrocuadrado" c1Observed [c1Stored] 5
      = (.updated true c1Observed, [c1Result]) ∧
    entriesFor "precio_arriendo" c1Stored = 0 ∧
    dget? c1Stored "precio_arriendo" = some (Val.int 200) ∧
    dget? c1Observed "precio_arriendo" = some (Val.int 250) ∧
    timelineOf c1Result = [Val.dict [("fecha", Val.time 0), ("precio_venta", Val.int 100)],
      Val.dict [("fecha", Val.time 5), ("precio_venta", Val.int 120)],
      Val.dict [("fecha", Val.time 5), ("precio_arriendo", Val.int 250)]] ∧
    entriesFor "precio_arriendo" c1Result = 1 := by decide

/-- C1, amended.  On the update path, for a tracked field `f` whose observed
value is present and differs from the stored value, the loop body appends a
baseline entry recording the prior stored value of `f` before the new-value
entry if and only if the timeline is currently *empty* (it holds no entry for
any field, not merely none for `f`); a second change to the same field finds a
non-empty timeline and appends exactly one new entry, so after two changes to
a single tracked field starting from an empty timeline the timeline has
exactly 3 entries. -/
theorem baseline_iff_timeline_empty
    (data1 data2 upd : Doc) (now now' : Nat) (c c' : Bool) (f : String)
    (v1 v2 : Val) (tl : List Val)
    (hft : f ∈ fieldsToTrack)
    (hd1 : dget? data1 f = some v1)
    (ht : dget? upd "timeline" = some (Val.list tl))
    (hne1 : v1 ≠ dgetD upd f Val.vnone)
    (hd2 : dget? data2 f = some v2)
    (hne2 : v2 ≠ v1) :
    trackField data1 now (upd, c) f = some (afterChange upd f v1 tl now, true) ∧
    timelineOf (afterChange upd f v1 tl now)
      = tl ++ (if tl = [] then [baselineEntry upd f now] else []) ++ [newEntry f v1 now] ∧
    trackField data2 now' (afterChange upd f v1 tl now, c') f
      = some (afterSecondChange upd f v1 v2 tl now now', true) ∧
    timelineOf (afterSecondChange upd f v1 v2 tl now now')
      = timelineOf (afterChange upd f v1 tl now) ++ [newEntry f v2 now'] ∧
    (tl = [] → (timelineOf (afterSecondChange upd f v1 v2 tl now now')).length = 3) := by
  have hf : f ≠ "timeline" := by fin_cases hft <;> decide
  have hlist : (if tl.isEmpty then tl ++ [baselineEntry upd f now] else tl) ++ [newEntry f v1 now]
      = tl ++ (if tl = [] then [baselineEntry upd f now] else []) ++ [newEntry f v1 now] := by
    cases tl <;> simp
  have h2tl : timelineOf (afterChange upd f v1 tl now)
      = tl ++ (if tl = [] then [baselineEntry upd f now] else []) ++ [newEntry f v1 now] := by
    unfold afterChange
    rw [timelineOf_dset_ne _ f v1 hf]
    simp [timelineOf, dget?_dset_self]
  have h1 : trackField data1 now (upd, c) f = some (afterChange upd f v1 tl now, true) := by
    unfold trackField
    dsimp only
    rw [hd1]
    dsimp only
    rw [if_pos hne1, ht]
    dsimp only
    unfold afterChange baselineEntry newEntry
    cases tl <;> simp
  have h3 : trackField data2 now' (afterChange upd f v1 tl now, c') f
      = some (afterSecondChange upd f v1 v2 tl now now', true) := by
    have hval : dget? (afterChange upd f v1 tl now) f = some v1 := by
      unfold afterChange
      exact dget?_dset_self _ f v1
    have hgd : dgetD (afterChange upd f v1 tl now) f Val.vnone = v1 := by
      simp [dgetD, hval]
    have htl2 : dget? (afterChange upd f v1 tl now) "timeline"
        = some (Val.list (tl ++ (if tl = [] then [baselineEntry upd f now] else [])
            ++ [newEntry f v1 now])) := by
      unfold afterChange
      rw [dget?_dset_ne _ f "timeline" _ hf]
      exact dget?_dset_self _ _ _
    have hemp : (tl ++ (if tl = [] then [baselineEntry upd f now] else [])
        ++ [newEntry f v1 now]).isEmpty = false := by
      simp [List.isEmpty_iff]
    unfold trackField
    dsimp only
    rw [hd2]
    dsimp only
    rw [hgd, if_pos hne2, htl2]
    dsimp only
    rw [hemp]
    unfold afterSecondChange afterChange baselineEntry newEntry
    simp
  have h4 : timelineOf (afterSecondChange upd f v1 v2 tl now now')
      = timelineOf (afterChange upd f v1 tl now) ++ [newEntry f v2 now'] := by
    unfold afterSecondChange
    rw [timelineOf_dset_ne _ f v2 hf]
    rw [h2tl]
    simp [timelineOf, dget?_dset_self]
  refine ⟨h1, h2tl, h3, h4, ?_⟩
  intro htlnil
  rw [h4, h2tl, htlnil]
  simp

/-- C1, witness: the amended theorem applied to a concrete first and second
change of `precio_venta` on a record with an empty timeline. -/
theorem baseline_iff_timeline_empty_witness :
    dget? [("precio_venta", Val.int 120)] "precio_venta" = some (Val.int 120) ∧
    trackField [("precio_venta", Val.int 120)] 1 (wBase, false) "precio_venta"
      = some (afterChange wBase "precio_venta" (Val.int 120) [] 1, true) ∧
    (timelineOf (afterSecondChange wBase "precio_venta" (Val.int 120) (Val.int 150) [] 1 2)).length
      = 3 :=
  ⟨by decide,
   (baseline_iff_timeline_empty [("precio_venta", Val.int 120)] [("precio_venta", Val.int 150)]
     wBase 1 2 false false "precio_venta" (Val.int 120) (Val.int 150) []
     (by decide) (by decide) (by decide) (by decide) (by decide) (by decide)).1,
   (baseline_iff_timeline_empty [("precio_venta", Val.int 120)] [("precio_venta", Val.int 150)]
     wBase 1 2 false false "precio_venta" (Val.int 120) (Val.int 150) []
     (by decide) (by decide) (by decide) (by decide) (by decide) (by decide)).2.2.2.2 rfl⟩

/-! ### Claim C2 — missing identifier is rejected before any storage access -/

/-- C2.  On an enabled, connected pipeline, an observation whose `codigo` is
missing or empty (Python-falsy) is dropped — for every spider — and the
collection is returned untouched; the check precedes the per-spider branches
that perform the `find_one`/`insert_one`/`update_one` calls. -/
theorem missing_codigo_dropped (p : Pipeline) (s : String) (item : Doc) (db : DB) (now : Nat)
    (hp : p.enabled = true) (hcl : p.clientSome = true) (hdb : p.dbSome = true)
    (hc : falsy (dgetD item "codigo" Val.vnone) = true) :
    processItem p s item db now = (.dropped, db) := by
  unfold processItem
  rw [hp, hcl, hdb]
  simp [hc]

/-- C2, witness: a concrete item without `codigo` is dropped and the empty
collection stays empty. -/
theorem missing_codigo_dropped_witness :
    falsy (dgetD [("url", Val.str "u")] "codigo" Val.vnone) = true ∧
    processItem ⟨true, true, true⟩ "metrocuadrado" [("url", Val.str "u")] [] 0 = (.dropped, []) :=
  ⟨by decide, missing_codigo_dropped ⟨true, true, true⟩ "metrocuadrado"
    [("url", Val.str "u")] [] 0 rfl rfl rfl (by decide)⟩

/-! ### Claim C3 — re-applying an unchanged observation is a no-op -/

/-- C3.  If applying an observation to an existing record produced the merged
document `upd`, then applying the very same observation to `upd` again
reports no price change (`price_changed = false`), appends no timeline entry,
and alters nothing but the `last_view` timestamp. -/
theorem mcUpdate_reapply_noop (data ex upd : Doc) (c : Bool) (now now' : Nat)
    (h : mcUpdate data ex now = some (upd, c)) :
    mcUpdate data upd now' = some (dset upd "last_view" (Val.time now'), false) ∧
    timelineOf (dset upd "last_view" (Val.time now')) = timelineOf upd := by
  obtain ⟨u1, c1, u2, h1, h2, hupd⟩ := mcUpdate_destruct data ex now upd c h
  have s1 := trackField_spec data now _ u1 false c1 "precio_venta" (by decide) h1
  have s2 := trackField_spec data now u1 u2 c1 c "precio_arriendo" (by decide) h2
  have hpv : ∀ v, dget? data "precio_venta" = some v →
      dget? upd "precio_venta" = some v := by
    intro v hv
    rw [hupd, dget?_dset_ne _ _ _ _ (by decide), dget?_dset_ne _ _ _ _ (by decide),
      s2.1 "precio_venta" (by decide) (by decide)]
    exact s1.2.1 v hv
  have hpa : ∀ v, dget? data "precio_arriendo" = some v →
      dget? upd "precio_arriendo" = some v := by
    intro v hv
    rw [hupd, dget?_dset_ne _ _ _ _ (by decide), dget?_dset_ne _ _ _ _ (by decide)]
    exact s2.2.1 v hv
  have him : dget? upd "imagenes" = some (dgetD data "imagenes" (Val.list [])) := by
    rw [hupd, dget?_dset_ne _ _ _ _ (by decide), dget?_dset_self]
  have hdesc : dget? upd "descripcion" = some (dgetD data "descripcion" (Val.str "")) := by
    rw [hupd, dget?_dset_self]
  have htl : dhas upd "timeline" = true := by
    have h2' := s2.2.2.2.1 (s1.2.2.2.1 (dhas_setdefaultTimeline _))
    rw [hupd]
    unfold dhas
    rw [dget?_dset_ne _ _ _ _ (by decide), dget?_dset_ne _ _ _ _ (by decide)]
    exact h2'
  refine ⟨?_, timelineOf_dset_ne _ _ _ (by decide)⟩
  have hW : setdefaultTimeline (dset upd "last_view" (Val.time now'))
      = dset upd "last_view" (Val.time now') := by
    apply setdefaultTimeline_of_dhas
    unfold dhas
    rw [dget?_dset_ne _ _ _ _ (by decide)]
    exact htl
  have ht1 : trackField data now' (dset upd "last_view" (Val.time now'), false)
      "precio_venta" = some (dset upd "last_view" (Val.time now'), false) := by
    apply trackField_noop
    intro v hv
    rw [dget?_dset_ne _ _ _ _ (by decide)]
    exact hpv v hv
  have ht2 : trackField data now' (dset upd "last_view" (Val.time now'), false)
      "precio_arriendo" = some (dset upd "last_view" (Val.time now'), false) := by
    apply trackField_noop
    intro v hv
    rw [dget?_dset_ne _ _ _ _ (by decide)]
    exact hpa v hv
  have htf : trackFields data now' ["precio_venta", "precio_arriendo"]
      (dset upd "last_view" (Val.time now'), false)
      = some (dset upd "last_view" (Val.time now'), false) := by
    simp only [trackFields, ht1, ht2]
  have him' : dset (dset upd "last_view" (Val.time now')) "imagenes"
      (dgetD data "imagenes" (Val.list [])) = dset upd "last_view" (Val.time now') := by
    apply dset_self
    rw [dget?_dset_ne _ _ _ _ (by decide)]
    exact him
  have hdesc' : dset (dset upd "last_view" (Val.time now')) "descripcion"
      (dgetD data "descripcion" (Val.str "")) = dset upd "last_view" (Val.time now') := by
    apply dset_self
    rw [dget?_dset_ne _ _ _ _ (by decide)]
    exact hdesc
  unfold mcUpdate fieldsToTrack
  dsimp only
  rw [hW, htf]
  dsimp only
  rw [him', hdesc']

/-- C3, witness: a concrete first application followed by a second application
of the same observation, which only refreshes `last_view`. -/
theorem mcUpdate_reapply_noop_witness :
    mcUpdate wObserved wExisting 1 = some (wUpdated, true) ∧
    mcUpdate wObserved wUpdated 2 = some (dset wUpdated "last_view" (Val.time 2), false) ∧
    timelineOf (dset wUpdated "last_view" (Val.time 2)) = timelineOf wUpdated :=
  ⟨by decide,
   (mcUpdate_reapply_noop wObserved wExisting wUpdated true 1 2 (by decide)).1,
   (mcUpdate_reapply_noop wObserved wExisting wUpdated true 1 2 (by decide)).2⟩

/-! ### Claim C4 — the `caracteristicas` aggregation is not idempotent -/

/-- C4, counterexample.  One aggregation pass over `c4Raw` moves `balcon` into
`caracteristicas`; applying the step a second time resets `caracteristicas` to
the empty list, because the source `featured_*` keys were deleted by the first
pass — the entry is lost and the results differ, refuting idempotence. -/
theorem remap_twice_loses_entries :
    remapCaracteristicas c4Raw = some c4Once ∧
    remapCaracteristicas c4Once = some c4Twice ∧
    c4Twice ≠ c4Once := by decide

/-- C4, amended.  A second application of the aggregation never duplicates
entries, but it is not idempotent: since the first pass deleted the four
`featured_*` source keys, a second pass merely resets `caracteristicas` to the
empty list — losing the aggregated entries — and it agrees with the first pass
exactly when that pass produced an empty `caracteristicas`. -/
theorem remap_second_run (d d' : Doc) (h : remapCaracteristicas d = some d') :
    remapCaracteristicas d' = some (dset d' "caracteristicas" (Val.list [])) ∧
    dget? (dset d' "caracteristicas" (Val.list [])) "caracteristicas" = some (Val.list []) ∧
    (dget? d' "caracteristicas" = some (Val.list []) → remapCaracteristicas d' = some d') := by
  obtain ⟨d1, d2, d3, h1, h2, h3, h4⟩ := remap_destruct d d' h
  have s1 := remapStep_spec _ _ _ h1
  have s2 := remapStep_spec _ _ _ h2
  have s3 := remapStep_spec _ _ _ h3
  have s4 := remapStep_spec _ _ _ h4
  have hfi : dget? d' "featured_interior" = none := by
    rw [s4.1 _ (by decide) (by decide), s3.1 _ (by decide) (by decide),
      s2.1 _ (by decide) (by decide)]
    exact s1.2
  have hfe : dget? d' "featured_exterior" = none := by
    rw [s4.1 _ (by decide) (by decide), s3.1 _ (by decide) (by decide)]
    exact s2.2
  have hfz : dget? d' "featured_zona_comun" = none := by
    rw [s4.1 _ (by decide) (by decide)]
    exact s3.2
  have hfs : dget? d' "featured_sector" = none := s4.2
  have step : ∀ (k : String), dget? d' k = none → k ≠ "caracteristicas" →
      remapStep (dset d' "caracteristicas" (Val.list [])) k
        = some (dset d' "caracteristicas" (Val.list [])) := by
    intro k hk hkc
    have hb : dhas (dset d' "caracteristicas" (Val.list [])) k = false := by
      rw [dhas, dget?_dset_ne _ _ _ _ (Ne.symm hkc), hk]
      rfl
    simp [remapStep, hb]
  have goal1 : remapCaracteristicas d' = some (dset d' "caracteristicas" (Val.list [])) := by
    unfold remapCaracteristicas featuredKeys
    simp [List.foldlM_cons, List.foldlM_nil, step _ hfi (by decide), step _ hfe (by decide),
      step _ hfz (by decide), step _ hfs (by decide)]
  refine ⟨goal1, dget?_dset_self _ _ _, ?_⟩
  intro hcar
  rw [goal1, dset_self _ _ _ hcar]

/-- C4, witness: the amended theorem applied to `c4Raw`, whose second pass
produces an empty `caracteristicas`. -/
theorem remap_second_run_witness :
    remapCaracteristicas c4Raw = some c4Once ∧
    remapCaracteristicas c4Once = some (dset c4Once "caracteristicas" (Val.list [])) ∧
    dget? (dset c4Once "caracteristicas" (Val.list [])) "caracteristicas"
      = some (Val.list []) :=
  ⟨by decide, (remap_second_run c4Raw c4Once (by decide)).1,
   (remap_second_run c4Raw c4Once (by decide)).2.1⟩

/-! ### Claim C5 — which attributes the update path overwrites -/

/-- C5, counterexample.  On the update path the observation carries
`area = 60` while the stored record holds `area = 50`; after the update the
persisted document still holds `area = 50`, so non-tracked attributes are not
all overwritten with the latest observation's values (only `imagenes` and
`descripcion` are — the persisted `descripcion` did become `new`). -/
theorem area_not_overwritten_on_update :
    processItem ⟨true, true, true⟩ "metrocuadrado" c5Observed [c5Stored] 7
      = (.updated false c5Observed, [c5Result]) ∧
    dget? c5Observed "area" = some (Val.int 60) ∧
    dget? c5Result "area" = some (Val.int 50) := by decide

/-- C5, amended.  On every update of an existing record the code overwrites
exactly two non-tracked attributes unconditionally — `imagenes` (defaulting to
`[]`) and `descripcion` (defaulting to `""`) — from the latest observation;
every other non-tracked attribute of the stored record keeps its stored
value. -/
theorem mcUpdate_overwrite_frame (data ex upd : Doc) (c : Bool) (now : Nat)
    (h : mcUpdate data ex now = some (upd, c)) :
    dget? upd "imagenes" = some (dgetD data "imagenes" (Val.list [])) ∧
    dget? upd "descripcion" = some (dgetD data "descripcion" (Val.str "")) ∧
    ∀ k, k ∉ ["precio_venta", "precio_arriendo", "timeline", "last_view",
        "imagenes", "descripcion"] → dget? upd k = dget? ex k := by
  obtain ⟨u1, c1, u2, h1, h2, hupd⟩ := mcUpdate_destruct data ex now upd c h
  have s1 := trackField_spec data now _ u1 false c1 "precio_venta" (by decide) h1
  have s2 := trackField_spec data now u1 u2 c1 c "precio_arriendo" (by decide) h2
  refine ⟨?_, ?_, ?_⟩
  · rw [hupd, dget?_dset_ne _ _ _ _ (by decide), dget?_dset_self]
  · rw [hupd, dget?_dset_self]
  · intro k hk
    simp only [List.mem_cons, List.not_mem_nil, or_false, not_or] at hk
    obtain ⟨hk1, hk2, hk3, hk4, hk5, hk6⟩ := hk
    rw [hupd, dget?_dset_ne _ _ _ _ (Ne.symm hk6), dget?_dset_ne _ _ _ _ (Ne.symm hk5),
      s2.1 k hk2 hk3, s1.1 k hk1 hk3, dget?_setdefaultTimeline_ne _ _ hk3,
      dget?_dset_ne _ _ _ _ (Ne.symm hk4)]

/-- C5, witness: the amended theorem applied to `wObserved`/`wExisting`; the
non-tracked attribute `area` keeps its stored value. -/
theorem mcUpdate_overwrite_frame_witness :
    mcUpdate wObserved wExisting 1 = some (wUpdated, true) ∧
    dget? wUpdated "imagenes" = some (dgetD wObserved "imagenes" (Val.list [])) ∧
    dget? wUpdated "descripcion" = some (dgetD wObserved "descripcion" (Val.str "")) ∧
    dget? wUpdated "area" = dget? wExisting "area" :=
  ⟨by decide,
   (mcUpdate_overwrite_frame wObserved wExisting wUpdated true 1 (by decide)).1,
   (mcUpdate_overwrite_frame wObserved wExisting wUpdated true 1 (by decide)).2.1,
   (mcUpdate_overwrite_frame wObserved wExisting wUpdated true 1 (by decide)).2.2 "area"
     (by decide)⟩

/-! ### Claim C6 — insert path for a never-seen identifier -/

/-- C6.  With a valid identifier that matches no stored document, the
metrocuadrado branch appends exactly one new document — the (aggregated)
observation with `datetime` defaulted to now — and reports an insert.  The
stored document holds no timeline entry (no `timeline` key is ever written on
insert; every reader treats its absence as an empty timeline), agrees with the
observation on every field other than `datetime`, and equals it exactly when
the observation already carried a `datetime`. -/
theorem never_seen_inserts (item data2 : Doc) (db : DB) (now : Nat)
    (hc : falsy (dgetD item "codigo" Val.vnone) = false)
    (hfind : findOne db (dgetD item "codigo" Val.vnone) = none)
    (hremap : remapCaracteristicas item = some data2)
    (htl : dget? item "timeline" = none) :
    processItem ⟨true, true, true⟩ "metrocuadrado" item db now
      = (.inserted item, db ++ [stampDatetime data2 now]) ∧
    dget? (stampDatetime data2 now) "timeline" = none ∧
    (∀ k, k ≠ "datetime" → dget? (stampDatetime data2 now) k = dget? data2 k) ∧
    (∀ dv, dget? data2 "datetime" = some dv → stampDatetime data2 now = data2) := by
  refine ⟨?_, ?_, ?_, ?_⟩
  · unfold processItem
    simp [hc, hfind, hremap]
  · obtain ⟨d1, d2, d3, h1, h2, h3, h4⟩ := remap_destruct item data2 hremap
    have s1 := remapStep_spec _ _ _ h1
    have s2 := remapStep_spec _ _ _ h2
    have s3 := remapStep_spec _ _ _ h3
    have s4 := remapStep_spec _ _ _ h4
    unfold stampDatetime
    rw [dget?_dset_ne _ _ _ _ (by decide),
      s4.1 _ (by decide) (by decide), s3.1 _ (by decide) (by decide),
      s2.1 _ (by decide) (by decide), s1.1 _ (by decide) (by decide),
      dget?_dset_ne _ _ _ _ (by decide)]
    exact htl
  · intro k hk
    unfold stampDatetime
    exact dget?_dset_ne _ _ _ _ (Ne.symm hk)
  · intro dv hdv
    unfold stampDatetime
    rw [show dgetD data2 "datetime" (Val.time now) = dv from by simp [dgetD, hdv]]
    exact dset_self _ _ _ hdv

/-- C6, witness: inserting a concrete never-seen observation into the empty
collection. -/
theorem never_seen_inserts_witness :
    remapCaracteristicas wInsertItem = some wInsertData ∧
    processItem ⟨true, true, true⟩ "metrocuadrado" wInsertItem [] 3
      = (.inserted wInsertItem, [stampDatetime wInsertData 3]) ∧
    dget? (stampDatetime wInsertData 3) "timeline" = none ∧
    stampDatetime wInsertData 3 = wInsertData :=
  ⟨by decide,
   (never_seen_inserts wInsertItem wInsertData [] 3 (by decide) (by decide) (by decide)
     (by decide)).1,
   (never_seen_inserts wInsertItem wInsertData [] 3 (by decide) (by decide) (by decide)
     (by decide)).2.1,
   (never_seen_inserts wInsertItem wInsertData [] 3 (by decide) (by decide) (by decide)
     (by decide)).2.2.2 (Val.time 3) (by decide)⟩

/-! ### Claim C7 — a tracked field absent from the observation is retained -/

/-- C7.  For a tracked field present in the stored record but absent from the
observation, the update leaves the stored value of that field unchanged and
appends no timeline entry mentioning it (absence is not treated as a
change). -/
theorem absent_tracked_retained (data ex upd : Doc) (c : Bool) (now : Nat) (f : String)
    (hf : f ∈ fieldsToTrack) (hd : dget? data f = none)
    (h : mcUpdate data ex now = some (upd, c)) :
    dget? upd f = dget? ex f ∧ entriesFor f upd = entriesFor f ex := by
  obtain ⟨u1, c1, u2, h1, h2, hupd⟩ := mcUpdate_destruct data ex now upd c h
  have s1 := trackField_spec data now _ u1 false c1 "precio_venta" (by decide) h1
  have s2 := trackField_spec data now u1 u2 c1 c "precio_arriendo" (by decide) h2
  fin_cases hf
  · obtain ⟨hu1, hc1⟩ := s1.2.2.1 hd
    constructor
    · rw [hupd, dget?_dset_ne _ _ _ _ (by decide), dget?_dset_ne _ _ _ _ (by decide),
        s2.1 "precio_venta" (by decide) (by decide), hu1,
        dget?_setdefaultTimeline_ne _ _ (by decide), dget?_dset_ne _ _ _ _ (by decide)]
    · rw [hupd, entriesFor_dset_ne _ _ _ _ (by decide), entriesFor_dset_ne _ _ _ _ (by decide),
        s2.2.2.2.2 "precio_venta" (by decide) (by decide), hu1,
        entriesFor_setdefaultTimeline, entriesFor_dset_ne _ _ _ _ (by decide)]
  · obtain ⟨hu2, hc2⟩ := s2.2.2.1 hd
    constructor
    · rw [hupd, dget?_dset_ne _ _ _ _ (by decide), dget?_dset_ne _ _ _ _ (by decide), hu2,
        s1.1 "precio_arriendo" (by decide) (by decide),
        dget?_setdefaultTimeline_ne _ _ (by decide), dget?_dset_ne _ _ _ _ (by decide)]
    · rw [hupd, entriesFor_dset_ne _ _ _ _ (by decide), entriesFor_dset_ne _ _ _ _ (by decide),
        hu2, s1.2.2.2.2 "precio_arriendo" (by decide) (by decide),
        entriesFor_setdefaultTimeline, entriesFor_dset_ne _ _ _ _ (by decide)]

/-- C7, witness: `wObserved` carries no `precio_arriendo`, and the update
leaves `precio_arriendo` and its (zero) timeline entries untouched. -/
theorem absent_tracked_retained_witness :
    dget? wObserved "precio_arriendo" = none ∧
    dget? wUpdated "precio_arriendo" = dget? wExisting "precio_arriendo" ∧
    entriesFor "precio_arriendo" wUpdated = entriesFor "precio_arriendo" wExisting :=
  ⟨by decide,
   (absent_tracked_retained wObserved wExisting wUpdated true 1 "precio_arriendo"
     (by decide) (by decide) (by decide)).1,
   (absent_tracked_retained wObserved wExisting wUpdated true 1 "precio_arriendo"
     (by decide) (by decide) (by decide)).2⟩

/-! ### Claim C8 — unrecognised spiders insert unconditionally -/

/-- C8.  A spider name other than `metrocuadrado`, `habi` and
`metrocuadrado_search` falls into the default branch, which performs no lookup
and appends a new document unconditionally; two observations with the same
identifier therefore yield two distinct stored documents. -/
theorem unknown_spider_inserts (s : String) (item item2 : Doc) (db : DB) (now now2 : Nat)
    (hs1 : s ≠ "metrocuadrado") (hs2 : s ≠ "habi") (hs3 : s ≠ "metrocuadrado_search")
    (hc : falsy (dgetD item "codigo" Val.vnone) = false)
    (hc2 : falsy (dgetD item2 "codigo" Val.vnone) = false)
    (_hsame : dgetD item2 "codigo" Val.vnone = dgetD item "codigo" Val.vnone) :
    processItem ⟨true, true, true⟩ s item db now
      = (.inserted item, db ++ [stampDatetime item now]) ∧
    processItem ⟨true, true, true⟩ s item2 (db ++ [stampDatetime item now]) now2
      = (.inserted item2, db ++ [stampDatetime item now, stampDatetime item2 now2]) := by
  constructor
  · unfold processItem
    simp [hc, hs1, hs2, hs3]
  · unfold processItem
    simp [hc2, hs1, hs2, hs3]

/-- C8, witness: the same item processed twice under an unrecognised spider
name produces two stored documents. -/
theorem unknown_spider_inserts_witness :
    processItem ⟨true, true, true⟩ "mitula" wOtherItem [] 0
      = (.inserted wOtherItem, [stampDatetime wOtherItem 0]) ∧
    processItem ⟨true, true, true⟩ "mitula" wOtherItem [stampDatetime wOtherItem 0] 1
      = (.inserted wOtherItem, [stampDatetime wOtherItem 0, stampDatetime wOtherItem 1]) :=
  ⟨(unknown_spider_inserts "mitula" wOtherItem wOtherItem [] 0 1
     (by decide) (by decide) (by decide) (by decide) (by decide) rfl).1,
   (unknown_spider_inserts "mitula" wOtherItem wOtherItem [] 0 1
     (by decide) (by decide) (by decide) (by decide) (by decide) rfl).2⟩

/-! ### Claim C9 — totality of the nested lookup helper -/

/-- C9.  `try_get` equals the specification fold: starting from the root, each
step addresses the child value exactly when it is a valid (present) dictionary
key or an in-range list index, and the whole lookup returns `none` as soon as
one step is invalid.  Being a total Lean function, it returns on every input —
the embedded loop never reaches the `except` clause, whose handler is
unreachable. -/
theorem tryGet_eq_resolvePath (ks : List PKey) : ∀ v, tryGet v ks = resolvePath v ks := by
  induction ks with
  | nil => intro v; rfl
  | cons k ks ih =>
      intro v
      rw [resolvePath, List.foldlM_cons]
      cases v with
      | jlist xs =>
          cases k with
          | pint i =>
              simp only [tryGet, specStep]
              split
              · simp [ih, resolvePath]
              · simp
          | pstr s => simp [tryGet, specStep]
      | jdict kvs =>
          cases k with
          | pstr s =>
              simp only [tryGet, specStep]
              cases hf : dictFind kvs s with
              | none => simp
              | some w => simp [ih w, resolvePath]
          | pint i => simp [tryGet, specStep]
      | jnull => cases k <;> simp [tryGet, specStep]
      | jbool b => cases k <;> simp [tryGet, specStep]
      | jnum n => cases k <;> simp [tryGet, specStep]
      | jstr s => cases k <;> simp [tryGet, specStep]

/-! ### Claim C10 — disabled pipeline passes items through untouched -/

/-- C10.  When the pipeline is disabled or a connection handle is `None`,
`process_item` returns the item unchanged and performs no storage operation
and no identifier validation: the theorem holds for *every* item, including
one with a missing identifier, which is passed through rather than dropped. -/
theorem disabled_passthrough (p : Pipeline) (s : String) (item : Doc) (db : DB) (now : Nat)
    (h : p.enabled = false ∨ p.clientSome = false ∨ p.dbSome = false) :
    processItem p s item db now = (.passthrough item, db) := by
  unfold processItem
  rcases h with h | h | h <;> rw [h] <;> simp

/-- C10, witness: a disabled pipeline passes through an item that has no
`codigo` at all. -/
theorem disabled_passthrough_witness :
    processItem ⟨false, true, true⟩ "metrocuadrado" [("url", Val.str "u")] [] 0
      = (.passthrough [("url", Val.str "u")], []) :=
  disabled_passthrough ⟨false, true, true⟩ "metrocuadrado" [("url", Val.str "u")] [] 0
    (Or.inl rfl)

end BogotaApartments
